import Mathlib

/-!
Shallow embedding of `src/read_2col_pdf.py`.

The program has two halves:
* a two-column PDF reading-order reconstruction (`is_full_width`,
  `is_header_or_footer`, `is_table_like`, `block_text`,
  `extract_text_two_cols`), operating on the block/line/span dictionaries
  produced by the PDF parser, and
* a clinical-trial-identifier extractor (`extract_trial_ids`) that runs a
  list of regular expressions over the text, plus the input dispatcher
  `extract_from_pdf_or_text`.

Python dictionaries are modelled by structures with `Option` fields where
the source accesses a key that can be absent: a direct subscript
`d["k"]` is modelled as a fallible lookup (raising `Err.keyError` on a
missing key), while `d.get("k", default)` is modelled with `Option.getD`.
Numeric page coordinates are modelled by `ℚ`; the Python float division
computing the digit ratio is modelled by exact rational division (the
claims about it concern only the strictness of a comparison).
Python's `re` patterns are modelled by the small regex syntax `RE` below,
each source pattern transcribed constructor by constructor, with
backtracking-preference match semantics (`matchEnds`) and `re.findall`
scan semantics (`findallFromAux`).
-/

/-- Python exceptions that the source can raise. -/
inductive Err where
  | keyError : Err
  | nameError : Err
  | fitzError : Err
deriving DecidableEq

/-- `d["k"]` on a possibly-missing key: return the value or raise. -/
def getOr {α : Type} (o : Option α) (e : Err) : Except Err α :=
  match o with
  | some a => Except.ok a
  | none => Except.error e

/-- Python's `sep.join(l)`: empty string on `[]`, otherwise fold the
separator between consecutive elements. -/
def pyJoin (sep : String) : List String → String
  | [] => ""
  | t :: ts => ts.foldl (fun acc x => acc ++ sep ++ x) t

/-- `sum(c.isdigit() for c in s)` (decimal digits). -/
def countDigits (s : String) : Nat :=
  (s.data.filter Char.isDigit).length

/-- `digit_ratio = sum(c.isdigit() for c in s) / len(s)` as an exact rational. -/
def digitFraction (s : String) : ℚ :=
  (countDigits s : ℚ) / (s.length : ℚ)

/-! ## Data model: the dictionaries returned by `page.get_text("dict")` -/

/-- A span dictionary; only its `"text"` entry is read, and
`is_table_like` guards for its absence while `block_text` does not. -/
structure Span where
  text : Option String

/-- A line dictionary; its `"spans"` entry is read directly in
`is_table_like` and with `.get("spans", [])` in `block_text`. -/
structure Line where
  spans : Option (List Span)

/-- A block dictionary: `"type"`, `"bbox"` and `"lines"` are read. -/
structure BBox where
  x0 : ℚ
  y0 : ℚ
  x1 : ℚ
  y1 : ℚ

structure Block where
  btype : Int
  bbox : Option BBox
  lines : Option (List Line)

/-- One parsed page: `page.rect.width`, `page.rect.height` and the
block list of `page.get_text("dict")["blocks"]`. -/
structure Page where
  width : ℚ
  height : ℚ
  blocks : List Block

/-! ## Block classifier -/

/-- `is_full_width(block, page_width, threshold)`:
`x0, y0, x1, y1 = block["bbox"]; width = x1 - x0;
return width >= page_width*threshold`.
(Defined in the source but never called by `extract_text_two_cols`.) -/
def is_full_width (block : Block) (page_width threshold : ℚ) : Except Err Bool := do
  let bb ← getOr block.bbox Err.keyError
  pure (decide (bb.x1 - bb.x0 ≥ page_width * threshold))

/-- `is_header_or_footer(block, page_height, margin)`:
`y0, y1 = block["bbox"][1], block["bbox"][3];
return y1 < margin or y0 > (page_height - margin)`. -/
def is_header_or_footer (block : Block) (page_height margin : ℚ) : Except Err Bool := do
  let bb ← getOr block.bbox Err.keyError
  pure (decide (bb.y1 < margin) || decide (bb.y0 > page_height - margin))

/-- `[span["text"] for span in line["spans"] if "text" in span]`
for one line (the direct `line["spans"]` subscript can raise). -/
def lineTexts (l : Line) : Except Err (List String) := do
  let spans ← getOr l.spans Err.keyError
  pure (spans.filterMap Span.text)

/-- `[span["text"] for line in lines for span in line["spans"] if "text" in span]`. -/
def spanTexts : List Line → Except Err (List String)
  | [] => Except.ok []
  | l :: ls => do
    let ts ← lineTexts l
    let rest ← spanTexts ls
    pure (ts ++ rest)

/-- `is_table_like(block, digit_threshold, line_threshold)`:
fewer lines than the threshold is not table-like; otherwise join all
span texts with single spaces, empty text is not table-like, else
table-like iff the digit fraction strictly exceeds the threshold. -/
def is_table_like (block : Block) (digit_threshold : ℚ) (line_threshold : Nat) :
    Except Err Bool := do
  let lines ← getOr block.lines Err.keyError
  if lines.length < line_threshold then
    pure false
  else do
    let text_content ← spanTexts lines
    let all_text := pyJoin " " text_content
    if all_text = "" then
      pure false
    else
      pure (decide (digitFraction all_text > digit_threshold))

/-! ## Block text renderer -/

/-- `" ".join(span['text'] for span in line.get("spans", []))` collects the
span texts of one line; the direct `span['text']` subscript can raise. -/
def renderSpans : List Span → Except Err (List String)
  | [] => Except.ok []
  | s :: ss => do
    let t ← getOr s.text Err.keyError
    let rest ← renderSpans ss
    pure (t :: rest)

/-- The per-line loop of `block_text`: one joined string per line. -/
def renderLines : List Line → Except Err (List String)
  | [] => Except.ok []
  | l :: ls => do
    let ts ← renderSpans (l.spans.getD [])
    let rest ← renderLines ls
    pure (pyJoin " " ts :: rest)

/-- `block_text(block)`: `"\n".join(...)` over the per-line joins,
with `block.get("lines", [])` tolerating a missing `"lines"` key. -/
def block_text (block : Block) : Except Err String := do
  let texts ← renderLines (block.lines.getD [])
  pure (pyJoin "\n" texts)

/-! ## Page pipeline of `extract_text_two_cols` -/

/-- The filter of the first list comprehension:
`b["type"] == 0 and not is_header_or_footer(b, h) and not is_table_like(b)`
with Python's left-to-right short-circuit evaluation. -/
def admitBlock (b : Block) (page_height : ℚ) : Except Err Bool := do
  if b.btype = 0 then do
    let hf ← is_header_or_footer b page_height 25
    if hf then
      pure false
    else do
      let tl ← is_table_like b (3 / 10) 3
      pure (!tl)
  else
    pure false

/-- `blocks = [b for b in page.get_text("dict")["blocks"] if ...]`. -/
def filterBlocks : List Block → ℚ → Except Err (List Block)
  | [], _ => Except.ok []
  | b :: bs, h => do
    let keep ← admitBlock b h
    let rest ← filterBlocks bs h
    pure (if keep then b :: rest else rest)

/-- The second (redundant) loop of the source: re-checks
`is_header_or_footer` and `is_table_like` and appends to `col_blocks`. -/
def filterCols : List Block → ℚ → Except Err (List Block)
  | [], _ => Except.ok []
  | b :: bs, h => do
    let hf ← is_header_or_footer b h 25
    if hf then
      filterCols bs h
    else do
      let tl ← is_table_like b (3 / 10) 3
      let rest ← filterCols bs h
      pure (if tl then rest else b :: rest)

/-- The column loop: `center_x = (x0 + x1) / 2`; append to `left_col`
when `center_x < page.rect.width / 2`, else to `right_col`. -/
def assignColumns : List Block → ℚ → Except Err (List Block × List Block)
  | [], _ => Except.ok ([], [])
  | b :: bs, w => do
    let bb ← getOr b.bbox Err.keyError
    let lr ← assignColumns bs w
    if (bb.x0 + bb.x1) / 2 < w / 2 then
      pure (b :: lr.1, lr.2)
    else
      pure (lr.1, b :: lr.2)

/-- Sort key `b["bbox"][1]`; every block reaching the sort has already
had its `"bbox"` read successfully by the column loop. -/
def topY (b : Block) : ℚ :=
  (b.bbox.getD ⟨0, 0, 0, 0⟩).y0

/-- Insert into an already-sorted list, after all strictly smaller keys
and before equal ones, as Python's stable ascending `list.sort`. -/
def insertByY (b : Block) : List Block → List Block
  | [] => [b]
  | c :: cs => if topY c < topY b then c :: insertByY b cs else b :: c :: cs

/-- `left_col.sort(key = lambda b: b["bbox"][1])`: stable ascending sort. -/
def sortByY (bs : List Block) : List Block :=
  bs.foldr insertByY []

/-- The page-text loop: `page_text += block_text(b) + "\n\n"`. -/
def blockTexts : List Block → Except Err (List String)
  | [] => Except.ok []
  | b :: bs => do
    let t ← block_text b
    let rest ← blockTexts bs
    pure (t :: rest)

/-- One iteration of the page loop of `extract_text_two_cols`. -/
def processPage (p : Page) : Except Err String := do
  let blocks ← filterBlocks p.blocks p.height
  let col_blocks ← filterCols blocks p.height
  let lr ← assignColumns col_blocks p.width
  let left_col := sortByY lr.1
  let right_col := sortByY lr.2
  let texts ← blockTexts (left_col ++ right_col)
  pure ((texts.map (fun t => t ++ "\n\n")).foldl (fun acc t => acc ++ t) "")

/-- The page loop with `enumerate`:
`full_text += "\n--- Page " + str(page_num + 1) + " ---\n" + page_text`. -/
def pagesFrom : Nat → List Page → Except Err String
  | _, [] => Except.ok ""
  | n, p :: ps => do
    let pt ← processPage p
    let rest ← pagesFrom (n + 1) ps
    pure ("\n--- Page " ++ toString (n + 1) ++ " ---\n" ++ pt ++ rest)

/-- `extract_text_two_cols(pdf_path)`, taking the already-parsed document
(the `fitz.open` collaborator is modelled in `Env.files`). -/
def extract_text_two_cols (doc : List Page) : Except Err String :=
  pagesFrom 0 doc

/-! ## The regex engine for `extract_trial_ids` -/

/-- Python `\w` on the ASCII range: letters, digits and underscore. -/
def wordChar (c : Char) : Bool :=
  c.isAlphanum || c = '_'

/-- The character of `t` at index `i`, if any. -/
def charAt (t : List Char) (i : Nat) : Option Char :=
  (t.drop i).head?

/-- Is the character at index `i` a word character (out-of-range counts as no)? -/
def isWordAt (t : List Char) (i : Nat) : Bool :=
  match charAt t i with
  | some c => wordChar c
  | none => false

/-- Python `\b`: the word-character status changes between `i - 1` and `i`
(positions before the start or past the end are non-word). -/
def atBoundary (t : List Char) (i : Nat) : Bool :=
  (if i = 0 then false else isWordAt t (i - 1)) != isWordAt t i

/-- The regex fragments the source's patterns are built from:
literal strings, greedy counted repetition of a character class
(`hi = none` meaning unbounded, so `{lo,hi}`, `+`, `?` of a class),
concatenation, greedy optional groups `(?:...)?`, and `\b`. -/
inductive RE where
  | lit : List Char → RE
  | reps : (Char → Bool) → Nat → Option Nat → RE
  | seq : RE → RE → RE
  | opt : RE → RE
  | wb : RE

/-- Does `s` occur literally at the head of `l`? -/
def litMatch : List Char → List Char → Bool
  | [], _ => true
  | _ :: _, [] => false
  | c :: cs, d :: ds => c == d && litMatch cs ds

/-- Length of the maximal run of class characters at the head of `l`. -/
def takeRun (p : Char → Bool) : List Char → Nat
  | [] => 0
  | c :: cs => if p c then takeRun p cs + 1 else 0

/-- The largest repetition count available: the run length, clamped by
the upper bound of the quantifier when there is one. -/
def clampTop (run : Nat) : Option Nat → Nat
  | some h => min run h
  | none => run

/-- All end positions of a match of `r` in `t` starting at `i`, in
backtracking-preference order (greedy first); a real regex engine
returns the first one that lets the rest of the pattern succeed. -/
def matchEnds : RE → List Char → Nat → List Nat
  | RE.lit s, t, i => if litMatch s (t.drop i) then [i + s.length] else []
  | RE.reps p lo hi, t, i =>
      let top := clampTop (takeRun p (t.drop i)) hi
      if top < lo then [] else (List.range (top + 1 - lo)).map (fun k => i + (top - k))
  | RE.seq a b, t, i => (matchEnds a t i).flatMap (fun j => matchEnds b t j)
  | RE.opt a, t, i => matchEnds a t i ++ [i]
  | RE.wb, t, i => if atBoundary t i then [i] else []

/-- The `re.findall` scan from position `i`: at each position take the
preferred match if any, emit the matched slice and resume after it
(after an empty match, resume one character further).  The fuel is only
a termination device; `findall` always passes enough. -/
def findallFromAux : Nat → RE → List Char → Nat → List (List Char)
  | 0, _, _, _ => []
  | fuel + 1, r, t, i =>
      if i ≤ t.length then
        match (matchEnds r t i).head? with
        | some j =>
            if i < j then
              (t.drop i).take (j - i) :: findallFromAux fuel r t j
            else
              [] :: findallFromAux fuel r t (i + 1)
        | none => findallFromAux fuel r t (i + 1)
      else []

/-- `re.findall(pattern, text)` (all patterns below are group-free, so
`findall` returns whole matches). -/
def findall (r : RE) (t : List Char) : List (List Char) :=
  findallFromAux (t.length + 2) r t 0

/-- A pattern all of whose consumed characters are word characters
(word boundaries consume nothing). -/
def wordOnlyRE : RE → Prop
  | RE.lit s => ∀ c ∈ s, wordChar c = true
  | RE.reps p _ _ => ∀ c, p c = true → wordChar c = true
  | RE.seq a b => wordOnlyRE a ∧ wordOnlyRE b
  | RE.opt a => wordOnlyRE a
  | RE.wb => True

/-- Concatenation of a list of fragments. -/
def rcat : List RE → RE
  | [] => RE.lit []
  | [r] => r
  | r :: rs => RE.seq r (rcat rs)

/-- A literal fragment from a string. -/
def rlit (s : String) : RE :=
  RE.lit s.data

/-- The class `[A-Z]`. -/
def upperAZ (c : Char) : Bool :=
  decide ('A' ≤ c) && decide (c ≤ 'Z')

/-- The class `[a-z]`. -/
def lowerAZ (c : Char) : Bool :=
  decide ('a' ≤ c) && decide (c ≤ 'z')

/-- The class `[A-Za-z0-9]`. -/
def alnumAZ09 (c : Char) : Bool :=
  upperAZ c || lowerAZ c || c.isDigit

/-! The 25 patterns the Python list holds at run time.  The source text
writes 26 regex literals, but the comma after the `IRCT/...` literal is
missing, so Python's implicit string concatenation fuses it with the
following `DRKS` literal into the single pattern `reIRCTslashDRKS`. -/

/-- Pattern `\bNCT\d{6,8}\b` (ClinicalTrials.gov). -/
def reNCT : RE :=
  rcat [RE.wb, rlit "NCT", RE.reps Char.isDigit 6 (some 8), RE.wb]

/-- Pattern `\bEUCTR\d{4}-\d{6}-\d{2}(?:-[A-Z]{2,3})?\b`. -/
def reEUCTR : RE :=
  rcat [RE.wb, rlit "EUCTR", RE.reps Char.isDigit 4 (some 4), rlit "-",
    RE.reps Char.isDigit 6 (some 6), rlit "-", RE.reps Char.isDigit 2 (some 2),
    RE.opt (rcat [rlit "-", RE.reps upperAZ 2 (some 3)]), RE.wb]

/-- Pattern `\bEudraCT\s?\d{4}-\d{6}-\d{2}\b`. -/
def reEudraCT : RE :=
  rcat [RE.wb, rlit "EudraCT", RE.reps Char.isWhitespace 0 (some 1),
    RE.reps Char.isDigit 4 (some 4), rlit "-", RE.reps Char.isDigit 6 (some 6),
    rlit "-", RE.reps Char.isDigit 2 (some 2), RE.wb]

/-- Pattern `\bISRCTN\d{6,8}\b`. -/
def reISRCTN : RE :=
  rcat [RE.wb, rlit "ISRCTN", RE.reps Char.isDigit 6 (some 8), RE.wb]

/-- Pattern `\bUMIN\d{6,8}\b`. -/
def reUMIN : RE :=
  rcat [RE.wb, rlit "UMIN", RE.reps Char.isDigit 6 (some 8), RE.wb]

/-- Pattern `\bChiCTR(?:-[A-Z]{2,3})?-\d{6,8}\b`. -/
def reChiCTR : RE :=
  rcat [RE.wb, rlit "ChiCTR", RE.opt (rcat [rlit "-", RE.reps upperAZ 2 (some 3)]),
    rlit "-", RE.reps Char.isDigit 6 (some 8), RE.wb]

/-- Pattern `\bACTRN\d{14}\b`. -/
def reACTRN : RE :=
  rcat [RE.wb, rlit "ACTRN", RE.reps Char.isDigit 14 (some 14), RE.wb]

/-- Pattern `\bJPRN-[A-Z]+\d{6,8}\b`. -/
def reJPRN : RE :=
  rcat [RE.wb, rlit "JPRN-", RE.reps upperAZ 1 none,
    RE.reps Char.isDigit 6 (some 8), RE.wb]

/-- Pattern `\bJapicCTI-\d{6}\b`. -/
def reJapicCTI : RE :=
  rcat [RE.wb, rlit "JapicCTI-", RE.reps Char.isDigit 6 (some 6), RE.wb]

/-- Pattern `\bCTRI/\d{4}/\d{2}/\d{6}\b`. -/
def reCTRI : RE :=
  rcat [RE.wb, rlit "CTRI/", RE.reps Char.isDigit 4 (some 4), rlit "/",
    RE.reps Char.isDigit 2 (some 2), rlit "/", RE.reps Char.isDigit 6 (some 6), RE.wb]

/-- Pattern `\bIRCT\d{8,15}(?:[A-Z]\d+)?\b`. -/
def reIRCT : RE :=
  rcat [RE.wb, rlit "IRCT", RE.reps Char.isDigit 8 (some 15),
    RE.opt (rcat [RE.reps upperAZ 1 (some 1), RE.reps Char.isDigit 1 none]), RE.wb]

/-- The fused pattern `\bIRCT/\d{4}/\d{2}/\d{2}/\d+\b\bDRKS\d{6,8}\b`:
the source misses a comma after the `IRCT/...` literal, so Python glues
it to the `DRKS` literal. -/
def reIRCTslashDRKS : RE :=
  rcat [RE.wb, rlit "IRCT/", RE.reps Char.isDigit 4 (some 4), rlit "/",
    RE.reps Char.isDigit 2 (some 2), rlit "/", RE.reps Char.isDigit 2 (some 2),
    rlit "/", RE.reps Char.isDigit 1 none, RE.wb, RE.wb, rlit "DRKS",
    RE.reps Char.isDigit 6 (some 8), RE.wb]

/-- Pattern `\bNTR\d{4,8}\b`. -/
def reNTR : RE :=
  rcat [RE.wb, rlit "NTR", RE.reps Char.isDigit 4 (some 8), RE.wb]

/-- Pattern `\bPER-\d{3,4}-\d{2}\b`. -/
def rePER : RE :=
  rcat [RE.wb, rlit "PER-", RE.reps Char.isDigit 3 (some 4), rlit "-",
    RE.reps Char.isDigit 2 (some 2), RE.wb]

/-- Pattern `\bKCT\d{6,8}\b`. -/
def reKCT : RE :=
  rcat [RE.wb, rlit "KCT", RE.reps Char.isDigit 6 (some 8), RE.wb]

/-- Pattern `\bSLCTR/\d{4}/\d{3}\b`. -/
def reSLCTR : RE :=
  rcat [RE.wb, rlit "SLCTR/", RE.reps Char.isDigit 4 (some 4), rlit "/",
    RE.reps Char.isDigit 3 (some 3), RE.wb]

/-- Pattern `\bRBR-[A-Za-z0-9]{6,10}\b`. -/
def reRBR : RE :=
  rcat [RE.wb, rlit "RBR-", RE.reps alnumAZ09 6 (some 10), RE.wb]

/-- Pattern `\bPACTR\d{14,20}\b`. -/
def rePACTR : RE :=
  rcat [RE.wb, rlit "PACTR", RE.reps Char.isDigit 14 (some 20), RE.wb]

/-- Pattern `\bTCTR\d{13}\b`. -/
def reTCTR : RE :=
  rcat [RE.wb, rlit "TCTR", RE.reps Char.isDigit 13 (some 13), RE.wb]

/-- Pattern `\bCRiS-KCT\d{7}\b`. -/
def reCRiSKCT : RE :=
  rcat [RE.wb, rlit "CRiS-KCT", RE.reps Char.isDigit 7 (some 7), RE.wb]

/-- Pattern `\bLBCTR\d{8,12}\b`. -/
def reLBCTR : RE :=
  rcat [RE.wb, rlit "LBCTR", RE.reps Char.isDigit 8 (some 12), RE.wb]

/-- Pattern `\bHC-CTD-\d{4}-\d{4}\b`. -/
def reHCCTD : RE :=
  rcat [RE.wb, rlit "HC-CTD-", RE.reps Char.isDigit 4 (some 4), rlit "-",
    RE.reps Char.isDigit 4 (some 4), RE.wb]

/-- Pattern `\bU1111-\d{4}-\d{4}\b`. -/
def reU1111 : RE :=
  rcat [RE.wb, rlit "U1111-", RE.reps Char.isDigit 4 (some 4), rlit "-",
    RE.reps Char.isDigit 4 (some 4), RE.wb]

/-- Pattern `\bUCTR\d{11,15}\b`. -/
def reUCTR : RE :=
  rcat [RE.wb, rlit "UCTR", RE.reps Char.isDigit 11 (some 15), RE.wb]

/-- Pattern `\bUCTR-\d{5,7}\b`. -/
def reUCTRdash : RE :=
  rcat [RE.wb, rlit "UCTR-", RE.reps Char.isDigit 5 (some 7), RE.wb]

/-- The `patterns` list, in source order (25 run-time patterns). -/
def trialPatterns : List RE :=
  [reNCT, reEUCTR, reEudraCT, reISRCTN, reUMIN, reChiCTR, reACTRN, reJPRN,
   reJapicCTI, reCTRI, reIRCT, reIRCTslashDRKS, reNTR, rePER, reKCT, reSLCTR,
   reRBR, rePACTR, reTCTR, reCRiSKCT, reLBCTR, reHCCTD, reU1111, reUCTR,
   reUCTRdash]

/-- The loop `for pattern in patterns: trial_ids += re.findall(pattern, text)`. -/
def trialIdMatches (s : String) : List String :=
  (trialPatterns.flatMap (fun r => findall r s.data)).map (fun l => String.mk l)

/-- `extract_trial_ids(text)`: the matches of all patterns,
deduplicated by exact string value (`list(set(trial_ids))`; the order of
a Python set is unspecified, so only membership and uniqueness are
meaningful). -/
def extract_trial_ids (s : String) : List String :=
  (trialIdMatches s).dedup

/-! ## The input dispatcher `extract_from_pdf_or_text` -/

/-- Python's `s.lower()` (ASCII model). -/
def pyLower (s : String) : String :=
  String.mk (s.data.map Char.toLower)

/-- Python's `s.endswith(suf)`. -/
def pyEndsWith (s suf : String) : Bool :=
  litMatch suf.data.reverse s.data.reverse

/-- The ambient state `extract_from_pdf_or_text` runs in: the filesystem
(mapping a path that `os.path.isfile` accepts to its parsed document)
and the module-level global `pdf_path`, when one is defined (`none`
models calling the function without the `__main__` block having run,
where the reference to `pdf_path` raises `NameError`). -/
structure Env where
  files : String → Option (List Page)
  pdf_path : Option String

/-- `extract_from_pdf_or_text(input_source)`: if `input_source` is an
existing file whose lowercased name ends in `.pdf`, run PDF extraction —
but the source passes the global `pdf_path` to `extract_text_two_cols`,
not `input_source` — else treat `input_source` as raw text; then extract
trial ids from the resulting text. -/
def extract_from_pdf_or_text (env : Env) (input_source : String) :
    Except Err (List String) := do
  if (env.files input_source).isSome && pyEndsWith (pyLower input_source) ".pdf" then do
    let p ← getOr env.pdf_path Err.nameError
    let doc ← getOr (env.files p) Err.fitzError
    let text ← extract_text_two_cols doc
    pure (extract_trial_ids text)
  else
    pure (extract_trial_ids input_source)

/-! ## Concrete fixtures used by the counterexample-style evaluations -/

/-- A full-width block (width 500 on a 600-wide page) with text TITLE,
lying at the top of the page (top-y 100). -/
def fwBlock : Block := ⟨0, some ⟨50, 100, 550, 120⟩, some [⟨some [⟨some "TITLE"⟩]⟩]⟩

/-- A left-column block (center-x 165 on a 600-wide page) with text LEFT,
lying below `fwBlock` (top-y 200). -/
def leftBlock : Block := ⟨0, some ⟨50, 200, 280, 300⟩, some [⟨some [⟨some "LEFT"⟩]⟩]⟩

/-- A malformed block: well-formed geometry but no `"lines"` key. -/
def noLinesBlock : Block := ⟨0, some ⟨50, 400, 280, 450⟩, none⟩

/-- A one-page, one-block parsed document whose only text is an NCT id. -/
def docNCT : List Page :=
  [⟨600, 800, [⟨0, some ⟨50, 200, 280, 300⟩, some [⟨some [⟨some "NCT00361335"⟩]⟩]⟩]⟩]

/-- A one-page, one-block parsed document whose only text is an ISRCTN id. -/
def docISRCTN : List Page :=
  [⟨600, 800, [⟨0, some ⟨50, 200, 280, 300⟩, some [⟨some [⟨some "ISRCTN12345678"⟩]⟩]⟩]⟩]

/-- A filesystem with the input file `paper.pdf` (parsing to `docNCT`) and
the file `data/paper2.pdf` named by the global `pdf_path` (parsing to
`docISRCTN`), with the global defined. -/
def envWithGlobal : Env :=
  ⟨fun p => if p = "paper.pdf" then some docNCT
    else if p = "data/paper2.pdf" then some docISRCTN else none,
   some "data/paper2.pdf"⟩

/-- The same filesystem, but the module global `pdf_path` is undefined
(the function imported as a library, `__main__` never run). -/
def envNoGlobal : Env := ⟨envWithGlobal.files, none⟩

/-- A block whose horizontal center (150) is exactly half the page width (300). -/
def tieBlock : Block := ⟨0, some ⟨100, 0, 200, 10⟩, none⟩

/-- Three one-span lines joining to the 10-character text `1a 2b 3cde`
with exactly 3 digits: digit fraction exactly 3/10. -/
def ratioBlock : Block :=
  ⟨0, none, some [⟨some [⟨some "1a"⟩]⟩, ⟨some [⟨some "2b"⟩]⟩, ⟨some [⟨some "3cde"⟩]⟩]⟩

/-- Three one-span lines whose span characters are all digits. -/
def allDigitBlock : Block :=
  ⟨0, none, some [⟨some [⟨some "12"⟩]⟩, ⟨some [⟨some "34"⟩]⟩, ⟨some [⟨some "56"⟩]⟩]⟩

/-! ## General helper lemmas -/

theorem except_ok_bind {ε α β : Type} (a : α) (f : α → Except ε β) :
    (Except.ok a >>= f) = f a := rfl

theorem except_pure {ε α : Type} (a : α) : (pure a : Except ε α) = Except.ok a := rfl

/-- `renderSpans` on spans that all carry a text field succeeds with those texts. -/
theorem renderSpans_ok (ls : List String) :
    renderSpans (ls.map (fun s => ⟨some s⟩)) = Except.ok ls := by
  induction ls with
  | nil => rfl
  | cons t ts ih => simp [renderSpans, getOr, ih, except_ok_bind, except_pure]

/-- `renderLines` on fully-populated lines succeeds with the per-line joins. -/
theorem renderLines_ok (lls : List (List String)) :
    renderLines (lls.map (fun ls => (⟨some (ls.map (fun s => ⟨some s⟩))⟩ : Line)))
      = Except.ok (lls.map (fun ls => pyJoin " " ls)) := by
  induction lls with
  | nil => rfl
  | cons l rest ih => simp [renderLines, renderSpans_ok, ih, except_ok_bind, except_pure]

/-- Unfolding the accumulator of a Python-style join into flat list data. -/
theorem foldl_append_data (sep acc : String) (ts : List String) :
    (ts.foldl (fun a x => a ++ sep ++ x) acc).data
      = acc.data ++ ts.flatMap (fun x => sep.data ++ x.data) := by
  induction ts generalizing acc with
  | nil => simp [List.foldl]
  | cons t ts ih => simp [List.foldl, ih, String.data_append]

/-- The characters of `" ".join(t :: ts)`. -/
theorem pyJoin_cons_data (t : String) (ts : List String) :
    (pyJoin " " (t :: ts)).data = t.data ++ ts.flatMap (fun x => ' ' :: x.data) := by
  simp [pyJoin, foldl_append_data]

/-- Each joined chunk contributes its separator space as a non-digit:
counting digits loses at least one character per chunk. -/
theorem filter_flat_space (ts : List String) :
    ((ts.flatMap (fun x => ' ' :: x.data)).filter Char.isDigit).length + ts.length
      ≤ (ts.flatMap (fun x => ' ' :: x.data)).length := by
  induction ts with
  | nil => simp
  | cons t ts ih =>
    have h1 := List.length_filter_le Char.isDigit t.data
    simp only [List.flatMap_cons, List.filter_append, List.length_append, List.length_cons,
      List.filter_cons, show Char.isDigit ' ' = false from rfl, Bool.false_eq_true, if_false]
    omega

/-! ## Regex-engine lemmas for the NCT soundness claim -/

theorem clampTop_le (run : Nat) (hi : Option Nat) : clampTop run hi ≤ run := by
  cases hi with
  | some h => exact min_le_left _ _
  | none => exact le_refl _

theorem matchEnds_ge (r : RE) (t : List Char) :
    ∀ i j, j ∈ matchEnds r t i → i ≤ j := by
  induction r with
  | lit s =>
    intro i j hj
    simp only [matchEnds] at hj
    split at hj
    · simp at hj
      omega
    · simp at hj
  | reps p lo hi =>
    intro i j hj
    simp only [matchEnds] at hj
    split at hj
    · simp at hj
    · simp only [List.mem_map, List.mem_range] at hj
      obtain ⟨k, _, rfl⟩ := hj
      omega
  | seq a b iha ihb =>
    intro i j hj
    simp only [matchEnds, List.mem_flatMap] at hj
    obtain ⟨m, hm, hjm⟩ := hj
    exact le_trans (iha i m hm) (ihb m j hjm)
  | opt a iha =>
    intro i j hj
    simp only [matchEnds, List.mem_append, List.mem_singleton] at hj
    rcases hj with hj | hj
    · exact iha i j hj
    · exact le_of_eq hj.symm
  | wb =>
    intro i j hj
    simp only [matchEnds] at hj
    split at hj
    · simp at hj
      omega
    · simp at hj

theorem matchEnds_cons (r : RE) (x : Char) (t : List Char) :
    ∀ i, 1 ≤ i → matchEnds r (x :: t) (i + 1) = (matchEnds r t i).map (fun j => j + 1) := by
  induction r with
  | lit s =>
    intro i hi
    simp only [matchEnds, List.drop_succ_cons]
    split
    · simp
      omega
    · simp
  | reps p lo hi =>
    intro i hi
    simp only [matchEnds, List.drop_succ_cons]
    split
    · simp
    · simp only [List.map_map]
      apply List.map_congr_left
      intro k hk
      simp only [Function.comp]
      omega
  | seq a b iha ihb =>
    intro i hi
    simp only [matchEnds, iha i hi]
    rw [List.flatMap_map, List.map_flatMap]
    apply List.flatMap_congr
    intro j hj
    exact ihb j (le_trans hi (matchEnds_ge a t i j hj))
  | opt a iha =>
    intro i hi
    simp only [matchEnds, iha i hi, List.map_append]
    simp
  | wb =>
    intro i hi
    have hb : atBoundary (x :: t) (i + 1) = atBoundary t i := by
      simp only [atBoundary, isWordAt, charAt]
      have h1 : (x :: t).drop (i + 1) = t.drop i := List.drop_succ_cons
      have h2 : (x :: t).drop i = t.drop (i - 1) := by
        obtain ⟨i', rfl⟩ : ∃ i', i = i' + 1 := ⟨i - 1, by omega⟩
        simp
      have h3 : ¬ (i + 1 = 0) := by omega
      have h4 : ¬ (i = 0) := by omega
      simp only [h1, h2, h3, h4, if_false, Nat.add_sub_cancel]
    simp only [matchEnds, hb]
    split
    · simp
    · simp

theorem matchEnds_shift (r : RE) (rest : List Char) :
    ∀ (a : List Char) (i : Nat), 1 ≤ i →
      matchEnds r (a ++ rest) (a.length + i) = (matchEnds r rest i).map (fun j => j + a.length) := by
  intro a
  induction a with
  | nil =>
    intro i hi
    simp
  | cons c a ih =>
    intro i hi
    have h2 : (c :: a).length + i = (a.length + i) + 1 := by simp; omega
    rw [h2, List.cons_append, matchEnds_cons r c (a ++ rest) (a.length + i) (by omega),
      ih i hi, List.map_map]
    apply List.map_congr_left
    intro j hj
    simp [Function.comp]
    omega

theorem litMatch_chars (s : List Char) :
    ∀ (l : List Char), litMatch s l = true → ∀ k < s.length, ∃ c, charAt l k = some c ∧ c ∈ s := by
  induction s with
  | nil =>
    intro l _ k hk
    simp at hk
  | cons c cs ih =>
    intro l hl k hk
    cases l with
    | nil => simp [litMatch] at hl
    | cons d ds =>
      simp only [litMatch, Bool.and_eq_true, beq_iff_eq] at hl
      obtain ⟨hcd, hrest⟩ := hl
      subst hcd
      cases k with
      | zero => exact ⟨c, rfl, List.mem_cons_self c cs⟩
      | succ k' =>
        obtain ⟨e, he, hmem⟩ := ih ds hrest k' (by simpa using hk)
        exact ⟨e, he, List.mem_cons_of_mem _ hmem⟩

theorem takeRun_chars (p : Char → Bool) :
    ∀ (l : List Char) (k : Nat), k < takeRun p l → ∃ c, charAt l k = some c ∧ p c = true := by
  intro l
  induction l with
  | nil =>
    intro k hk
    simp [takeRun] at hk
  | cons d ds ih =>
    intro k hk
    simp only [takeRun] at hk
    by_cases hd : p d
    · simp only [hd, if_true] at hk
      cases k with
      | zero => exact ⟨d, rfl, hd⟩
      | succ k' => exact ih k' (by omega)
    · simp [hd] at hk

theorem charAt_shift (t : List Char) (i k : Nat) :
    charAt t (i + k) = charAt (t.drop i) k := by
  simp [charAt, List.drop_drop, Nat.add_comm]

theorem matchEnds_wordOnly (r : RE) (t : List Char) :
    ∀ i j, wordOnlyRE r → j ∈ matchEnds r t i →
      ∀ k, i ≤ k → k < j → ∃ c, charAt t k = some c ∧ wordChar c = true := by
  induction r with
  | lit s =>
    intro i j hw hj k hik hkj
    simp only [matchEnds] at hj
    split at hj
    case isTrue hlit =>
      simp only [List.mem_singleton] at hj
      subst hj
      obtain ⟨c, hc, hmem⟩ := litMatch_chars s (t.drop i) hlit (k - i) (by omega)
      refine ⟨c, ?_, hw c hmem⟩
      rw [show k = i + (k - i) by omega, charAt_shift]
      exact hc
    case isFalse => simp at hj
  | reps p lo hi =>
    intro i j hw hj k hik hkj
    simp only [matchEnds] at hj
    split at hj
    case isTrue => simp at hj
    case isFalse htop =>
      simp only [List.mem_map, List.mem_range] at hj
      obtain ⟨m, hmlt, rfl⟩ := hj
      have htople := clampTop_le (takeRun p (t.drop i)) hi
      have hbound : k - i < takeRun p (t.drop i) := by omega
      obtain ⟨c, hc, hpc⟩ := takeRun_chars p (t.drop i) (k - i) hbound
      refine ⟨c, ?_, hw c hpc⟩
      rw [show k = i + (k - i) by omega, charAt_shift]
      exact hc
  | seq a b iha ihb =>
    intro i j hw hj k hik hkj
    simp only [matchEnds, List.mem_flatMap] at hj
    obtain ⟨m, hm, hjm⟩ := hj
    by_cases hkm : k < m
    · exact iha i m hw.1 hm k hik hkm
    · exact ihb m j hw.2 hjm k (by omega) hkj
  | opt a iha =>
    intro i j hw hj k hik hkj
    simp only [matchEnds, List.mem_append, List.mem_singleton] at hj
    rcases hj with hj | hj
    · exact iha i j hw hj k hik hkj
    · omega
  | wb =>
    intro i j hw hj k hik hkj
    simp only [matchEnds] at hj
    split at hj
    · simp at hj
      omega
    · simp at hj

theorem matchEnds_reNCT_base (b : List Char) (w1 w2 : Char)
    (hw1 : wordChar w1 = false) (hw2w : wordChar w2 = false)
    (hw2d : Char.isDigit w2 = false) :
    matchEnds reNCT
      (w1 :: 'N' :: 'C' :: 'T' :: '0' :: '0' :: '3' :: '6' :: '1' :: '3' :: '3' :: '5' :: w2 :: b)
      1 = [12] := by
  have hN : wordChar 'N' = true := rfl
  have h5 : wordChar '5' = true := rfl
  have h3 : wordChar '3' = true := rfl
  simp [reNCT, rcat, rlit, matchEnds, atBoundary, isWordAt, charAt, takeRun, clampTop,
    litMatch, hw1, hw2w, hw2d, hN, h5, h3, List.range_succ]

theorem matchEnds_reNCT_at (a b : List Char) (w1 w2 : Char)
    (hw1 : wordChar w1 = false) (hw2w : wordChar w2 = false)
    (hw2d : Char.isDigit w2 = false) :
    matchEnds reNCT
      (a ++ w1 :: 'N' :: 'C' :: 'T' :: '0' :: '0' :: '3' :: '6' :: '1' :: '3' :: '3' :: '5' :: w2 :: b)
      (a.length + 1) = [a.length + 12] := by
  rw [matchEnds_shift reNCT _ a 1 (le_refl 1),
    matchEnds_reNCT_base b w1 w2 hw1 hw2w hw2d]
  simp [Nat.add_comm]

theorem wordOnly_reNCT : wordOnlyRE reNCT := by
  simp only [reNCT, rcat, rlit, wordOnlyRE]
  refine ⟨trivial, ?_, ?_, trivial⟩
  · intro c hc
    simp only [List.mem_cons, List.not_mem_nil, or_false] at hc
    rcases hc with rfl | rfl | rfl <;> rfl
  · intro c h
    simp [wordChar, Char.isAlphanum, h]

theorem whitespace_not_word (c : Char) (h : c.isWhitespace = true) :
    wordChar c = false ∧ c.isDigit = false := by
  simp only [Char.isWhitespace, Bool.or_eq_true, decide_eq_true_eq] at h
  have hc : c = ' ' ∨ c = '\t' ∨ c = '\r' ∨ c = '\n' := by tauto
  rcases hc with rfl | rfl | rfl | rfl <;> exact ⟨rfl, rfl⟩

theorem findallFromAux_mem (r : RE) (t : List Char) (i0 : Nat) (s : List Char)
    (hm : (matchEnds r t i0).head? = some (i0 + s.length)) (hs : 0 < s.length)
    (htake : (t.drop i0).take s.length = s) (hi0 : i0 ≤ t.length)
    (hcross : ∀ p j, p < i0 → j ∈ matchEnds r t p → j < i0) :
    ∀ fuel p, p ≤ i0 → t.length + 2 ≤ fuel + p → s ∈ findallFromAux fuel r t p := by
  intro fuel
  induction fuel with
  | zero =>
    intro p hp hf
    omega
  | succ fuel ih =>
    intro p hp hf
    by_cases hpi : p = i0
    · subst hpi
      have hlt : p < p + s.length := by omega
      simp only [findallFromAux, hi0, if_true, hm, hlt, Nat.add_sub_cancel_left, htake]
      exact List.mem_cons_self _ _
    · have hplt : p < i0 := by omega
      have hple : p ≤ t.length := by omega
      rcases hh : (matchEnds r t p).head? with _ | j
      · simp only [findallFromAux, hple, if_true, hh]
        exact ih (p + 1) (by omega) (by omega)
      · have hjmem : j ∈ matchEnds r t p := List.mem_of_mem_head? (Option.mem_def.mpr hh)
        have hji0 : j < i0 := hcross p j hplt hjmem
        by_cases hpj : p < j
        · simp only [findallFromAux, hple, if_true, hh, hpj]
          exact List.mem_cons_of_mem _ (ih j (by omega) (by omega))
        · simp only [findallFromAux, hple, if_true, hh, hpj, if_false]
          exact List.mem_cons_of_mem _ (ih (p + 1) (by omega) (by omega))

/-! ## Claims -/

unseal Rat.mul Rat.add Rat.sub Rat.inv in
/-- Claim C1: the claim says reading-order reconstruction emits full-width
blocks in top-y order as section separators and never places them in a
left or right column group.  The code does not: `is_full_width` is never
called by `extract_text_two_cols`, which buckets every surviving block by
center-x.  On a page with a full-width TITLE block (top-y 100, center-x
exactly at the page midline, hence routed right) above a left-column
LEFT block (top-y 200), the produced page text is LEFT before TITLE,
with the full-width block inside the right column group. -/
theorem claim1_fullwidth_block_bucketed_into_column :
    is_full_width fwBlock 600 (8 / 10) = Except.ok true
    ∧ extract_text_two_cols [⟨600, 800, [fwBlock, leftBlock]⟩]
        = Except.ok "\n--- Page 1 ---\nLEFT\n\nTITLE\n\n" :=
  ⟨rfl, rfl⟩

unseal Rat.mul Rat.add Rat.sub Rat.inv in
/-- Claim C2: the claim says that on an existing `.pdf` path the function
extracts from that input path.  The code instead passes the module
global `pdf_path` to `extract_text_two_cols`: with the global defined as
`data/paper2.pdf` (parsing to `docISRCTN`), asking for `paper.pdf`
(parsing to `docNCT`) returns `docISRCTN`'s ids, not `docNCT`'s; with
the global undefined the reference raises `NameError`.  The raw-text
branch does work as claimed (last conjunct). -/
theorem claim2_dispatch_extracts_global_pdf_path :
    extract_from_pdf_or_text envWithGlobal "paper.pdf" = Except.ok ["ISRCTN12345678"]
    ∧ extract_from_pdf_or_text envNoGlobal "paper.pdf" = Except.error Err.nameError
    ∧ (do
        let text ← extract_text_two_cols docNCT
        pure (extract_trial_ids text) : Except Err (List String)) = Except.ok ["NCT00361335"]
    ∧ extract_from_pdf_or_text envWithGlobal "raw text NCT00361335 input"
        = Except.ok ["NCT00361335"] :=
  ⟨rfl, rfl, rfl, rfl⟩

/-- Claim C3: the claim says a word-bounded `DRKS` + 6-8 digits substring
is always extracted.  Because the source misses a comma after the
`IRCT/...` regex literal, the DRKS pattern is fused into
`reIRCTslashDRKS`, which can never match (it would need a word boundary
between two word characters), so the text `DRKS123456` yields no ids at
all. -/
theorem claim3_drks_id_not_extracted :
    extract_trial_ids "DRKS123456" = [] := rfl

unseal Rat.mul Rat.add Rat.sub Rat.inv in
/-- Claim C4: the claim says a malformed block is skipped and the rest of
the page still produces text.  In the code a block with no `"lines"` key
raises `KeyError` inside `is_table_like` during the filtering
comprehension, aborting the whole document: with well-formed blocks both
before and after the malformed one, no text is produced at all. -/
theorem claim4_malformed_block_aborts_document :
    extract_text_two_cols [⟨600, 800, [leftBlock, noLinesBlock, fwBlock]⟩]
      = Except.error Err.keyError := rfl

/-- Claim C6: the extractor's result never contains a duplicate string,
and a string belongs to it exactly when some pattern matched it
somewhere in the text (the result is the union of all patterns' matches
deduplicated by exact string value). -/
theorem claim6_result_deduplicated_union (s : String) :
    (extract_trial_ids s).Nodup
    ∧ ∀ tid : String, tid ∈ extract_trial_ids s ↔ tid ∈ trialIdMatches s :=
  ⟨List.nodup_dedup _, fun _ => List.mem_dedup⟩

/-- Claim C7: a block whose horizontal center `(x0 + x1) / 2` equals
`pageWidth / 2` exactly is assigned to the right column (the `<`
comparison routes ties right). -/
theorem claim7_center_tie_goes_right (b : Block) (bs : List Block) (w : ℚ) (bb : BBox)
    (l r : List Block) (hbb : b.bbox = some bb) (hc : (bb.x0 + bb.x1) / 2 = w / 2)
    (hrest : assignColumns bs w = Except.ok (l, r)) :
    assignColumns (b :: bs) w = Except.ok (l, b :: r) := by
  simp [assignColumns, hbb, getOr, hrest, hc, except_ok_bind, except_pure]

unseal Rat.mul Rat.add Rat.inv in
/-- Witness for C7 at a concrete block with center 150 on a 300-wide page. -/
theorem claim7_witness : assignColumns [tieBlock] 300 = Except.ok ([], [tieBlock]) :=
  claim7_center_tie_goes_right tieBlock [] 300 ⟨100, 0, 200, 10⟩ [] [] rfl rfl rfl

/-- Claim C8: a block with at least `line_threshold` lines whose digit
fraction is exactly the digit threshold is classified not table-like
(the comparison is strict). -/
theorem claim8_exact_threshold_not_table_like (b : Block) (dt : ℚ) (lt : Nat)
    (lines : List Line) (texts : List String)
    (hl : b.lines = some lines) (hlen : ¬ lines.length < lt)
    (hst : spanTexts lines = Except.ok texts) (hne : ¬ pyJoin " " texts = "")
    (hfrac : digitFraction (pyJoin " " texts) = dt) :
    is_table_like b dt lt = Except.ok false := by
  simp [is_table_like, hl, getOr, hlen, hst, hne, hfrac, except_ok_bind, except_pure]

unseal Rat.mul Rat.add Rat.inv in
/-- Witness for C8: `ratioBlock` joins to `1a 2b 3cde`, 3 digits in 10
characters, exactly the default threshold 3/10: not table-like. -/
theorem claim8_witness : is_table_like ratioBlock (3 / 10) 3 = Except.ok false :=
  claim8_exact_threshold_not_table_like ratioBlock (3 / 10) 3
    [⟨some [⟨some "1a"⟩]⟩, ⟨some [⟨some "2b"⟩]⟩, ⟨some [⟨some "3cde"⟩]⟩]
    ["1a", "2b", "3cde"] rfl (by decide) rfl (by decide) rfl

/-- Claim C9: for every block (any bbox, any type tag) the renderer joins
each line's span texts with single spaces and the lines with single line
breaks; a block with no lines renders to the empty string, and a block
with one line holding one span renders to exactly that span's text. -/
theorem claim9_block_text_rendering : ∀ (ty : Int) (bb : Option BBox)
    (lls : List (List String)),
    block_text ⟨ty, bb, some (lls.map (fun ls => ⟨some (ls.map (fun s => ⟨some s⟩))⟩))⟩
      = Except.ok (pyJoin "\n" (lls.map (fun ls => pyJoin " " ls)))
    ∧ block_text ⟨ty, bb, some []⟩ = Except.ok ""
    ∧ ∀ t : String, block_text ⟨ty, bb, some [⟨some [⟨some t⟩]⟩]⟩ = Except.ok t := by
  intro ty bb lls
  refine ⟨?_, rfl, fun t => rfl⟩
  simp [block_text, renderLines_ok, except_ok_bind, except_pure]

/-- Claim C10: the table classifier computes its digit fraction over the
span texts joined with single spaces (first conjunct: that is literally
the value `is_table_like` compares against the threshold), so with at
least two non-empty spans each separator space is a non-digit in the
denominator and an all-digit block has fraction strictly below 1
(second conjunct). -/
theorem claim10_digit_fraction_counts_separator_spaces (b : Block) (lines : List Line)
    (texts : List String) (dt : ℚ) (lt : Nat)
    (hl : b.lines = some lines) (hlen : ¬ lines.length < lt)
    (hst : spanTexts lines = Except.ok texts)
    (hdig : ∀ t ∈ texts, ∀ c ∈ t.data, c.isDigit = true)
    (hne : 2 ≤ (texts.filter (fun t => decide (¬ t = ""))).length) :
    is_table_like b dt lt = Except.ok (decide (digitFraction (pyJoin " " texts) > dt))
    ∧ digitFraction (pyJoin " " texts) < 1 := by
  have h2 : 2 ≤ texts.length := le_trans hne (List.length_filter_le _ _)
  obtain ⟨t, ts, rfl⟩ : ∃ t ts, texts = t :: ts := by
    cases texts with
    | nil => simp at h2
    | cons t ts => exact ⟨t, ts, rfl⟩
  obtain ⟨x, xs, rfl⟩ : ∃ x xs, ts = x :: xs := by
    cases ts with
    | nil => simp at h2
    | cons x xs => exact ⟨x, xs, rfl⟩
  have hdata := pyJoin_cons_data t (x :: xs)
  have hflat := filter_flat_space (x :: xs)
  have hcount : countDigits (pyJoin " " (t :: x :: xs))
      = (t.data.filter Char.isDigit).length
        + (((x :: xs).flatMap (fun y => ' ' :: y.data)).filter Char.isDigit).length := by
    simp [countDigits, hdata, List.filter_append]
  have hlength : (pyJoin " " (t :: x :: xs)).length
      = t.data.length + ((x :: xs).flatMap (fun y => ' ' :: y.data)).length := by
    have hh : (pyJoin " " (t :: x :: xs)).length = (pyJoin " " (t :: x :: xs)).data.length := rfl
    simp [hh, hdata]
  have hlt : countDigits (pyJoin " " (t :: x :: xs)) < (pyJoin " " (t :: x :: xs)).length := by
    have h1 := List.length_filter_le Char.isDigit t.data
    have hx : (x :: xs).length = xs.length + 1 := by simp
    omega
  have hnempty : ¬ pyJoin " " (t :: x :: xs) = "" := by
    intro h
    have hd := congrArg String.data h
    rw [hdata] at hd
    simp at hd
  have hfrac : digitFraction (pyJoin " " (t :: x :: xs)) < 1 := by
    rw [digitFraction, div_lt_one]
    · exact_mod_cast hlt
    · have hpos : 0 < (pyJoin " " (t :: x :: xs)).length := by omega
      exact_mod_cast hpos
  refine ⟨?_, hfrac⟩
  simp [is_table_like, hl, getOr, hlen, hst, hnempty, except_ok_bind, except_pure]

/-- Witness for C10: `allDigitBlock` has three all-digit spans; the
classifier's fraction for it is 6/8, strictly below 1. -/
theorem claim10_witness :
    is_table_like allDigitBlock (3 / 10) 3
      = Except.ok (decide (digitFraction (pyJoin " " ["12", "34", "56"]) > 3 / 10))
    ∧ digitFraction (pyJoin " " ["12", "34", "56"]) < 1 :=
  claim10_digit_fraction_counts_separator_spaces allDigitBlock
    [⟨some [⟨some "12"⟩]⟩, ⟨some [⟨some "34"⟩]⟩, ⟨some [⟨some "56"⟩]⟩]
    ["12", "34", "56"] (3 / 10) 3 rfl (by decide) rfl (by decide) (by decide)

/-- Claim C5: any text containing the literal substring NCT00361335
bounded by whitespace on both sides yields NCT00361335 in the
extractor's result: the NCT pattern matches there (word boundaries hold
because whitespace is not a word character, and the greedy digit
repetition takes exactly the eight digits), no earlier match of the
scan can cross the whitespace character before it (every character a
match consumes is a word character), and membership survives the
deduplication. -/
theorem claim5_whitespace_bounded_nct_extracted (str : String) (a b : List Char) (w1 w2 : Char)
    (hw1 : w1.isWhitespace = true) (hw2 : w2.isWhitespace = true)
    (hs : str.data = a ++ w1 :: ("NCT00361335".data ++ w2 :: b)) :
    "NCT00361335" ∈ extract_trial_ids str := by
  obtain ⟨hw1w, hw1d⟩ := whitespace_not_word w1 hw1
  obtain ⟨hw2w, hw2d⟩ := whitespace_not_word w2 hw2
  have hdat : ("NCT00361335".data : List Char)
      = ['N', 'C', 'T', '0', '0', '3', '6', '1', '3', '3', '5'] := rfl
  rw [hdat] at hs
  have hmatch : matchEnds reNCT str.data (a.length + 1) = [a.length + 12] := by
    rw [hs]
    exact matchEnds_reNCT_at a b w1 w2 hw1w hw2w hw2d
  have hw1at : charAt str.data a.length = some w1 := by
    rw [hs]
    simp [charAt, List.drop_left]
  have hcross : ∀ p j, p < a.length + 1 → j ∈ matchEnds reNCT str.data p → j < a.length + 1 := by
    intro p j hp hj
    by_contra hge
    obtain ⟨c, hc, hcw⟩ := matchEnds_wordOnly reNCT str.data p j wordOnly_reNCT hj a.length
      (by omega) (by omega)
    rw [hw1at] at hc
    cases hc
    rw [hw1w] at hcw
    exact Bool.false_ne_true hcw
  have hlen : a.length + 1 ≤ str.data.length := by
    rw [hs]
    simp
  have hfind : ("NCT00361335".data : List Char) ∈ findall reNCT str.data := by
    apply findallFromAux_mem reNCT str.data (a.length + 1) "NCT00361335".data
      ?hm (by rw [hdat]; simp) ?htake hlen hcross (str.data.length + 2) 0 (by omega) (by omega)
    case hm =>
      rw [hmatch, hdat]
      simp
    case htake =>
      rw [hdat, hs, show a ++ w1 :: (['N', 'C', 'T', '0', '0', '3', '6', '1', '3', '3', '5'] ++ w2 :: b)
          = (a ++ [w1]) ++ (['N', 'C', 'T', '0', '0', '3', '6', '1', '3', '3', '5'] ++ w2 :: b) by simp]
      rw [List.drop_left' (by simp)]
      rfl
  rw [extract_trial_ids, List.mem_dedup, trialIdMatches, List.mem_map]
  refine ⟨"NCT00361335".data, ?_, rfl⟩
  rw [List.mem_flatMap]
  exact ⟨reNCT, by simp [trialPatterns], hfind⟩

/-- Witness for C5 at the concrete text consisting of the id surrounded
by single spaces. -/
theorem claim5_witness : "NCT00361335" ∈ extract_trial_ids " NCT00361335 " :=
  claim5_whitespace_bounded_nct_extracted " NCT00361335 " [] [] ' ' ' ' rfl rfl rfl
